import Mathlib

/-
Verification of the advanced-search query compiler of go-webtoolkit.

The embedding works over explicit character lists (`Str := List Char`), so
that every definition is executable and every concrete compilation can be
evaluated inside a proof.  The Go sources embedded here are the two
coexisting versions of the package:

* v1: `pkg/advanced_search` (`advanced_search.go` with `RegisterOperator`,
  `advanced_sql_search.go` with a plain string column whitelist), and
* v2: `pkg/v2/advanced_search` (`advanced_search.go` with sort clauses,
  `advanced_sql_search.go` with the `Column` registry).

Go standard-library calls (`strings.Fields`, `strings.SplitN`,
`strings.Split`, `strings.ToLower`, `strings.EqualFold`,
`strings.ReplaceAll`, `strconv.Atoi`, `strconv.ParseFloat`) are modelled by
the `fields`, `splitNOn`, `splitAll`, `toLowerStr`, `equalFold`,
`escapeString`, `goAtoiOk` and `goParseFloatOk` functions below; each
carries a comment stating exactly what is modelled.
-/

namespace AdvSearch

/-- Characters of a Go string; the embedding works over explicit character lists. -/
abbrev Str := List Char

/-- Convert a Lean string literal to the character-list representation. -/
def str (s : String) : Str := s.data

/-- ASCII whitespace, the separator class of strings.Fields for the inputs at
hand (Go uses unicode.IsSpace; all queries here are ASCII). -/
def isSpaceChar (c : Char) : Bool :=
  c = ' ' || c = '\t' || c = '\n' || c = '\r' || c = '\x0b' || c = '\x0c'

/-- Single pass of strings.Fields with an accumulator holding the current
token reversed. -/
def fieldsAux : Str → Str → List Str
  | [], acc => if acc.isEmpty then [] else [acc.reverse]
  | c :: rest, acc =>
    if isSpaceChar c then
      if acc.isEmpty then fieldsAux rest [] else acc.reverse :: fieldsAux rest []
    else fieldsAux rest (c :: acc)

/-- Models strings.Fields: split around runs of whitespace, producing no empty
tokens. -/
def fields (s : Str) : List Str := fieldsAux s []

/-- strings.HasPrefix. -/
def startsWith (s pfx : Str) : Bool := pfx.isPrefixOf s

/-- strings.HasSuffix. -/
def endsWith (s sfx : Str) : Bool := sfx.isSuffixOf s

/-- Split off the segment before the first occurrence of sep; none if sep is
absent. -/
def breakAt (sep : Char) : Str → Option (Str × Str)
  | [] => none
  | c :: rest =>
    if c = sep then some ([], rest)
    else
      match breakAt sep rest with
      | none => none
      | some (a, b) => some (c :: a, b)

/-- Models strings.SplitN(s, sep, n) for a one-character separator and n ≥ 1:
at most n parts, the last part keeping the remainder. -/
def splitNOn (sep : Char) : Nat → Str → List Str
  | 0, _ => []
  | 1, s => [s]
  | n + 2, s =>
    match breakAt sep s with
    | none => [s]
    | some (a, b) => a :: splitNOn sep (n + 1) b

/-- Models strings.Split(s, sep) for a one-character separator: an empty input
yields one empty part, like Go. -/
def splitAll (sep : Char) : Str → List Str
  | [] => [[]]
  | c :: rest =>
    if c = sep then [] :: splitAll sep rest
    else
      match splitAll sep rest with
      | [] => [[c]]
      | a :: parts => (c :: a) :: parts

/-- Models strings.ToLower for ASCII input. -/
def toLowerStr (s : Str) : Str := s.map Char.toLower

/-- The Operator enumeration of both package versions. -/
inductive Operator where
  | Equal
  | NotEqual
  | GreaterThan
  | GreaterThanOrEqual
  | LessThan
  | LessThanOrEqual
  | Null
  | NotNull
  | Like
  | UnknownOperator
deriving DecidableEq

/-- Operator.String(): the SQL spelling of each operator. -/
def Operator.toStr : Operator → Str
  | .Equal => str "="
  | .NotEqual => str "!="
  | .GreaterThan => str ">"
  | .GreaterThanOrEqual => str ">="
  | .LessThan => str "<"
  | .LessThanOrEqual => str "<="
  | .Null => str "IS NULL"
  | .NotNull => str "IS NOT NULL"
  | .Like => str "LIKE"
  | .UnknownOperator => str "unknown"

/-- The process-wide operatorMap, made explicit: an association list whose most
recent binding for a key wins (Go map assignment overwrites). -/
abbrev OperatorMap := List (Str × Operator)

/-- The built-in operatorMap contents. -/
def defaultOperatorMap : OperatorMap :=
  [ (str "=", .Equal),
    (str "!=", .NotEqual),
    (str ">", .GreaterThan),
    (str ">=", .GreaterThanOrEqual),
    (str "<", .LessThan),
    (str "<=", .LessThanOrEqual),
    (str "null", .Null),
    (str "notnull", .NotNull),
    (str "like", .Like) ]

/-- Go map lookup on the association list: first (most recent) binding wins. -/
def opLookup (m : OperatorMap) (key : Str) : Option Operator :=
  match m with
  | [] => none
  | (k, op) :: rest => if k = key then some op else opLookup rest key

/-- RegisterOperator (v1 package): operatorMap[symbol] = op.  The new binding
shadows any older binding for the same symbol. -/
def registerOperator (m : OperatorMap) (symbol : Str) (op : Operator) : OperatorMap :=
  (symbol, op) :: m

/-- escapeString: strings.ReplaceAll(value, single quote, two single quotes). -/
def escapeString : Str → Str
  | [] => []
  | c :: rest => if c = '\'' then '\'' :: '\'' :: escapeString rest else c :: escapeString rest

/-- Models strconv.Atoi success: optional sign then one or more ASCII digits.
Out-of-range integers make Atoi fail, but Clause.Sql then falls through to the
ParseFloat check which succeeds on the same digit string, leaving the rendered
output unchanged; integer range is therefore not modelled. -/
def goAtoiOk (s : Str) : Bool :=
  match s with
  | [] => false
  | c :: rest =>
    if c = '+' ∨ c = '-' then !rest.isEmpty && rest.all Char.isDigit
    else (c :: rest).all Char.isDigit

/-- Split at the first character satisfying isSep, dropping the separator. -/
def splitFirst (isSep : Char → Bool) : Str → Str × Option Str
  | [] => ([], none)
  | c :: rest =>
    if isSep c then ([], some rest)
    else
      let p := splitFirst isSep rest
      (c :: p.1, p.2)

/-- Decimal mantissa: digits with at most one dot and at least one digit. -/
def mantissaOk (s : Str) : Bool :=
  match splitFirst (fun c => c == '.') s with
  | (ip, none) => !ip.isEmpty && ip.all Char.isDigit
  | (ip, some frac) => ip.all Char.isDigit && frac.all Char.isDigit && (!ip.isEmpty || !frac.isEmpty)

/-- Decimal mantissa with an optional signed exponent. -/
def floatBody (t : Str) : Bool :=
  match splitFirst (fun c => c == 'e' || c == 'E') t with
  | (mant, none) => mantissaOk mant
  | (mant, some e) => mantissaOk mant && goAtoiOk e

/-- Models strconv.ParseFloat(s, 64) success: optional sign, decimal mantissa
with an optional signed exponent, or the special values inf/infinity (signed)
and nan (unsigned), case-insensitively.  Hexadecimal floats, digit-group
underscores and out-of-range exponents are not modelled: no input in the
claims involves them, and none of those forms can contain a quote or a space,
which is all the theorems below rely on. -/
def goParseFloatOk (s : Str) : Bool :=
  if toLowerStr s = str "nan" ∨ toLowerStr s = str "inf" ∨ toLowerStr s = str "infinity" ∨
      toLowerStr s = str "+inf" ∨ toLowerStr s = str "-inf" ∨
      toLowerStr s = str "+infinity" ∨ toLowerStr s = str "-infinity" then
    true
  else
    match s with
    | [] => floatBody []
    | c :: rest => if c = '+' ∨ c = '-' then floatBody rest else floatBody (c :: rest)

/-- Clause: one parsed field/operator/value predicate. -/
structure Clause where
  field : Str
  operator : Operator
  value : Str
deriving DecidableEq

/-- Clause.Sql of the v2 package (part with the name parameter): the canonical
column name replaces the parsed field when supplied. -/
def Clause.Sql (c : Clause) (name : Str) : Str :=
  let field := if name = [] then c.field else name
  match c.operator with
  | .Null | .NotNull => field ++ str " " ++ c.operator.toStr
  | .Like => field ++ str " " ++ c.operator.toStr ++ str " '%" ++ c.value ++ str "%'"
  | _ =>
    if goAtoiOk c.value then field ++ str " " ++ c.operator.toStr ++ str " " ++ c.value
    else if goParseFloatOk c.value then field ++ str " " ++ c.operator.toStr ++ str " " ++ c.value
    else field ++ str " " ++ c.operator.toStr ++ str " '" ++ escapeString c.value ++ str "'"

/-- Clause.Sql of the v1 package: identical rendering, always using the parsed
field name. -/
def Clause.SqlV1 (c : Clause) : Str :=
  match c.operator with
  | .Null | .NotNull => c.field ++ str " " ++ c.operator.toStr
  | .Like => c.field ++ str " " ++ c.operator.toStr ++ str " '%" ++ c.value ++ str "%'"
  | _ =>
    if goAtoiOk c.value then c.field ++ str " " ++ c.operator.toStr ++ str " " ++ c.value
    else if goParseFloatOk c.value then c.field ++ str " " ++ c.operator.toStr ++ str " " ++ c.value
    else c.field ++ str " " ++ c.operator.toStr ++ str " '" ++ escapeString c.value ++ str "'"

/-- Sort direction. -/
inductive Direction where
  | Asc
  | Desc
deriving DecidableEq

/-- SortClause: one parsed sort entry. -/
structure SortClause where
  field : Str
  direction : Direction
deriving DecidableEq

/-- parseSortClause (v2 package); the Go version returns a pointer that is
never nil, so the nil check at its call site is always passed. -/
def parseSortClause (sort : Str) : SortClause :=
  if endsWith sort (str "__asc") then ⟨sort.take (sort.length - 5), .Asc⟩
  else if endsWith sort (str "__desc") then ⟨sort.take (sort.length - 6), .Desc⟩
  else ⟨sort, .Asc⟩

/-- ParseError: offending token and reason. -/
structure ParseError where
  part : Str
  cause : Str
deriving DecidableEq

/-- The value-unquoting step of Parse: strip one wrapper quote pair when the
value is at least two characters long and starts and ends with a quote. -/
def stripWrapQuotes (v : Str) : Str :=
  if 2 ≤ v.length ∧ v.head? = some '\'' ∧ v.getLast? = some '\'' then (v.drop 1).dropLast else v

/-- The predicate-token branch of Parse, identical in the v1 and v2 packages:
split on colons into at most three parts, resolve the operator on the
lowercased key, and require a value for non-null operators.  splitNOn with
limit 3 always yields one, two or three parts; the final catch-all arm is
unreachable. -/
def parseClauseToken (m : OperatorMap) (part : Str) : Except ParseError Clause :=
  match splitNOn ':' 3 part with
  | [_] => .error ⟨part, str "invalid query format"⟩
  | [field, opKey] =>
    match opLookup m (toLowerStr opKey) with
    | none => .error ⟨part, str "unsupported operator"⟩
    | some op =>
      if op ≠ .Null ∧ op ≠ .NotNull then .error ⟨part, str "missing value"⟩
      else .ok ⟨field, op, []⟩
  | [field, opKey, v] =>
    match opLookup m (toLowerStr opKey) with
    | none => .error ⟨part, str "unsupported operator"⟩
    | some op =>
      if op ≠ .Null ∧ op ≠ .NotNull then .ok ⟨field, op, stripWrapQuotes v⟩
      else .ok ⟨field, op, []⟩
  | _ => .error ⟨part, str "invalid query format"⟩

/-- Parse of the v2 package over the whitespace-split token list.  A token
starting with sort: always splits into exactly two parts on the first colon,
so the invalid-sort-format branch of the Go source is unreachable and the
remainder after the first colon is the token minus its first five
characters. -/
def parseTokens (m : OperatorMap) : List Str → Except ParseError (List Clause × List SortClause)
  | [] => .ok ([], [])
  | part :: rest =>
    if startsWith part (str "sort:") then
      match parseTokens m rest with
      | .error e => .error e
      | .ok (cs, ss) => .ok (cs, (splitAll ',' (part.drop 5)).map parseSortClause ++ ss)
    else
      match parseClauseToken m part with
      | .error e => .error e
      | .ok c =>
        match parseTokens m rest with
        | .error e => .error e
        | .ok (cs, ss) => .ok (c :: cs, ss)

/-- AdvancedSearch.Parse of the v2 package: an empty query yields empty clause
and sort lists without error. -/
def parseQuery (m : OperatorMap) (query : Str) : Except ParseError (List Clause × List SortClause) :=
  parseTokens m (fields query)

/-- Error type of the v1 package calls that can also fail with a plain
errors.New / fmt.Errorf error. -/
inductive GoError where
  | parse (e : ParseError)
  | plain (msg : Str)
deriving DecidableEq

/-- Parse of the v1 package over the token list: every token is a predicate
token. -/
def parseTokensV1 (m : OperatorMap) : List Str → Except ParseError (List Clause)
  | [] => .ok []
  | part :: rest =>
    match parseClauseToken m part with
    | .error e => .error e
    | .ok c =>
      match parseTokensV1 m rest with
      | .error e => .error e
      | .ok cs => .ok (c :: cs)

/-- AdvancedSearch.Parse of the v1 package: an empty query is an error. -/
def parseQueryV1 (m : OperatorMap) (query : Str) : Except GoError (List Clause) :=
  match fields query with
  | [] => .error (.plain (str "empty query"))
  | parts => (parseTokensV1 m parts).mapError .parse

/-- The contains helper of the v1 advanced_sql_search. -/
def containsStr (slice : List Str) (item : Str) : Bool := slice.any (fun s => s == item)

/-- The clause loop of AdvancedSqlSearch.Sql (v1): with a non-empty column
list, a clause whose field is not listed is a fatal error; otherwise the
clause renders. -/
def sqlV1Parts (columns : List Str) : List Clause → Except GoError (List Str)
  | [] => .ok []
  | c :: rest =>
    if 0 < columns.length ∧ containsStr columns c.field = false then
      .error (.plain (str "field " ++ c.field ++ str " is not allowed"))
    else
      match sqlV1Parts columns rest with
      | .error e => .error e
      | .ok parts => .ok (c.SqlV1 :: parts)

/-- strings.Join with the given separator. -/
def joinWith (sep : Str) : List Str → Str
  | [] => []
  | [x] => x
  | x :: y :: rest => x ++ sep ++ joinWith sep (y :: rest)

/-- AdvancedSqlSearch.Sql of the v1 package. -/
def advancedSqlSearchV1 (m : OperatorMap) (query : Str) (columns : List Str) : Except GoError Str :=
  match parseQueryV1 m query with
  | .error e => .error e
  | .ok cs =>
    match sqlV1Parts columns cs with
    | .error e => .error e
    | .ok parts => .ok (joinWith (str " AND ") parts)

/-- Column type enumeration of the v2 package. -/
inductive ColumnType where
  | StringType
  | IntType
  | FloatType
  | BoolType
  | DateType
  | DateTimeType
deriving DecidableEq

/-- Column: canonical name, declared type and aliases. -/
structure Column where
  name : Str
  type : ColumnType
  aliases : List Str
deriving DecidableEq

/-- Models strings.EqualFold for ASCII input. -/
def equalFold (a b : Str) : Bool := toLowerStr a == toLowerStr b

/-- getColumnByFieldName: first column whose canonical name or any alias
matches the field case-insensitively. -/
def getColumnByFieldName (columns : List Column) (fieldName : Str) : Option Column :=
  columns.find? (fun col =>
    equalFold col.name fieldName || col.aliases.any (fun al => equalFold al fieldName))

/-- WhereStatement (v2): unresolved clauses are dropped; resolved clauses
render with the canonical column name and join with AND. -/
def whereStatement (columns : List Column) (whereClauses : List Clause) : Str :=
  joinWith (str " AND ")
    (whereClauses.filterMap (fun c =>
      (getColumnByFieldName columns c.field).map (fun col => c.Sql col.name)))

/-- SortStatement (v2): unresolved sort entries are dropped; resolved entries
render the canonical name with ASC or DESC and join with a comma. -/
def sortStatement (columns : List Column) (sortClauses : List SortClause) : Str :=
  joinWith (str ", ")
    (sortClauses.filterMap (fun sc =>
      (getColumnByFieldName columns sc.field).map (fun col =>
        col.name ++ str " " ++ (if sc.direction = .Desc then str "DESC" else str "ASC"))))

/-- NewAdvancedSqlSearch followed by Sql (v2): parse once, then render both
fragments; WhereStatement and SortStatement themselves never fail. -/
def advancedSqlSearch (m : OperatorMap) (query : Str) (columns : List Column) :
    Except ParseError (Str × Str) :=
  match parseQuery m query with
  | .error e => .error e
  | .ok (cs, ss) => .ok (whereStatement columns cs, sortStatement columns ss)

/-- Number of single-quote characters in a fragment.  A fragment whose quote
count is odd is syntactically unterminated: scanning quotes left to right
(with a doubled quote inside a literal read as an escape) must end outside a
literal, which happens exactly when the count is even. -/
def countQuote (s : Str) : Nat := s.count '\''

/-- Every maximal run of single quotes has even length, i.e. quotes occur only
as doubled pairs: the form escaping must give the content of an emitted
literal. -/
def quotesDoubled : Str → Bool
  | [] => true
  | c :: rest =>
    if c = '\'' then
      match rest with
      | [] => false
      | d :: rest2 => d = '\'' && quotesDoubled rest2
    else quotesDoubled rest

/-- A malformed predicate token in the sense of the grammar: a non-sort token
with no colon at all, or an operator key that resolves to no operator, or a
non-null/notnull operator without a value segment. -/
def malformedToken (m : OperatorMap) (t : Str) : Bool :=
  !startsWith t (str "sort:") &&
    (match splitNOn ':' 3 t with
     | [_] => true
     | [_, opKey] =>
       match opLookup m (toLowerStr opKey) with
       | none => true
       | some op => decide (op ≠ .Null ∧ op ≠ .NotNull)
     | [_, opKey, _] => (opLookup m (toLowerStr opKey)).isNone
     | _ => true)

/-! Helper lemmas about quote counting and the numeric predicates. -/

theorem countQuote_append (a b : Str) : countQuote (a ++ b) = countQuote a + countQuote b :=
  List.count_append _ _ _

theorem countQuote_opToStr (op : Operator) : countQuote op.toStr = 0 := by
  cases op <;> rfl

theorem countQuote_eq_zero {s : Str} : countQuote s = 0 ↔ '\'' ∉ s := List.count_eq_zero

theorem escapeString_cons_quote (rest : Str) :
    escapeString ('\'' :: rest) = '\'' :: '\'' :: escapeString rest := by
  simp [escapeString]

theorem escapeString_cons_ne {c : Char} (h : c ≠ '\'') (rest : Str) :
    escapeString (c :: rest) = c :: escapeString rest := by
  simp [escapeString, h]

theorem countQuote_cons (c : Char) (l : Str) :
    countQuote (c :: l) = countQuote l + if c = '\'' then 1 else 0 := by
  simp [countQuote, List.count_cons]

theorem countQuote_escapeString (v : Str) : countQuote (escapeString v) = 2 * countQuote v := by
  induction v with
  | nil => rfl
  | cons c rest ih =>
    by_cases h : c = '\''
    · subst h
      rw [escapeString_cons_quote, countQuote_cons, countQuote_cons, countQuote_cons, ih]
      simp
      omega
    · rw [escapeString_cons_ne h, countQuote_cons, countQuote_cons, ih, if_neg h]
      omega

theorem quotesDoubled_pair (X : Str) : quotesDoubled ('\'' :: '\'' :: X) = quotesDoubled X := by
  rfl

theorem quotesDoubled_cons_ne {c : Char} (h : c ≠ '\'') (X : Str) :
    quotesDoubled (c :: X) = quotesDoubled X := by
  cases X with
  | nil => simp [quotesDoubled, h]
  | cons d rest => simp [quotesDoubled, h]

theorem quotesDoubled_escapeString (v : Str) : quotesDoubled (escapeString v) = true := by
  induction v with
  | nil => rfl
  | cons c rest ih =>
    by_cases h : c = '\''
    · subst h
      rw [escapeString_cons_quote, quotesDoubled_pair, ih]
    · rw [escapeString_cons_ne h, quotesDoubled_cons_ne h, ih]

theorem no_quote_of_all_digits {s : Str} (h : s.all Char.isDigit = true) : '\'' ∉ s := by
  intro hm
  exact absurd (List.all_eq_true.mp h _ hm) (by decide)

theorem goAtoiOk_no_quote {s : Str} (h : goAtoiOk s = true) : '\'' ∉ s := by
  match s with
  | [] => simp [goAtoiOk] at h
  | c :: rest =>
    by_cases hc : c = '+' ∨ c = '-'
    · simp only [goAtoiOk, if_pos hc, Bool.and_eq_true] at h
      intro hm
      rcases List.mem_cons.mp hm with h1 | h1
      · rcases hc with h2 | h2 <;> rw [h2] at h1 <;> exact absurd h1 (by decide)
      · exact absurd h1 (no_quote_of_all_digits h.2)
    · simp only [goAtoiOk, if_neg hc] at h
      exact no_quote_of_all_digits h

theorem mem_splitFirst (f : Char → Bool) {c : Char} (hfc : f c = false) :
    ∀ {s : Str}, c ∈ s →
      c ∈ (splitFirst f s).1 ∨ ∃ e, (splitFirst f s).2 = some e ∧ c ∈ e := by
  intro s
  induction s with
  | nil => intro hm; simp at hm
  | cons a rest ih =>
    intro hm
    by_cases hf : f a = true
    · right
      refine ⟨rest, by simp [splitFirst, hf], ?_⟩
      rcases List.mem_cons.mp hm with h1 | h1
      · subst h1; rw [hfc] at hf; exact absurd hf (by simp)
      · exact h1
    · rcases List.mem_cons.mp hm with h1 | h1
      · left
        simp [splitFirst, hf, h1]
      · rcases ih h1 with h2 | ⟨e, he, h2⟩
        · left; simp [splitFirst, hf, h2]
        · right; exact ⟨e, by simp [splitFirst, hf, he], h2⟩

theorem mantissaOk_no_quote {s : Str} (h : mantissaOk s = true) : '\'' ∉ s := by
  intro hm
  rcases hp : splitFirst (fun c => c == '.') s with ⟨ip, fo⟩
  rw [mantissaOk, hp] at h
  rcases mem_splitFirst (fun c => c == '.') (by decide) hm with h1 | ⟨e, he, h1⟩
  · rw [hp] at h1
    cases fo <;> simp only [Bool.and_eq_true] at h
    · exact absurd h1 (no_quote_of_all_digits h.2)
    · exact absurd h1 (no_quote_of_all_digits h.1.1)
  · rw [hp] at he
    cases fo with
    | none => simp at he
    | some frac =>
      have hef : frac = e := by simpa using he
      subst hef
      simp only [Bool.and_eq_true] at h
      exact absurd h1 (no_quote_of_all_digits h.1.2)

theorem floatBody_no_quote {t : Str} (h : floatBody t = true) : '\'' ∉ t := by
  intro hm
  rcases hp : splitFirst (fun c => c == 'e' || c == 'E') t with ⟨mant, eo⟩
  rw [floatBody, hp] at h
  rcases mem_splitFirst (fun c => c == 'e' || c == 'E') (by decide) hm with h1 | ⟨e, he, h1⟩
  · rw [hp] at h1
    cases eo <;> simp only [Bool.and_eq_true] at h
    · exact absurd h1 (mantissaOk_no_quote h)
    · exact absurd h1 (mantissaOk_no_quote h.1)
  · rw [hp] at he
    cases eo with
    | none => simp at he
    | some e2 =>
      have hee : e2 = e := by simpa using he
      subst hee
      simp only [Bool.and_eq_true] at h
      exact absurd h1 (goAtoiOk_no_quote h.2)

theorem goParseFloatOk_no_quote {s : Str} (h : goParseFloatOk s = true) : '\'' ∉ s := by
  intro hm
  have hlow : '\'' ∈ toLowerStr s := by
    have h2 := List.mem_map_of_mem Char.toLower hm
    simpa [toLowerStr] using h2
  by_cases hsp : toLowerStr s = str "nan" ∨ toLowerStr s = str "inf" ∨
      toLowerStr s = str "infinity" ∨ toLowerStr s = str "+inf" ∨ toLowerStr s = str "-inf" ∨
      toLowerStr s = str "+infinity" ∨ toLowerStr s = str "-infinity"
  · rcases hsp with h1 | h1 | h1 | h1 | h1 | h1 | h1 <;> rw [h1] at hlow <;>
      exact absurd hlow (by decide)
  · cases s with
    | nil => simp at hm
    | cons c rest =>
      rw [goParseFloatOk, if_neg hsp] at h
      by_cases hc : c = '+' ∨ c = '-'
      · rw [if_pos hc] at h
        have hmr : '\'' ∈ rest := by
          rcases List.mem_cons.mp hm with h1 | h1
          · rcases hc with h2 | h2 <;> rw [h2] at h1 <;> exact absurd h1 (by decide)
          · exact h1
        exact absurd hmr (floatBody_no_quote h)
      · rw [if_neg hc] at h
        exact absurd hm (floatBody_no_quote h)

theorem countQuote_zero_of_numeric {v : Str}
    (h : (goAtoiOk v || goParseFloatOk v) = true) : countQuote v = 0 := by
  rcases Bool.or_eq_true_iff.mp h with h1 | h1
  · exact countQuote_eq_zero.mpr (goAtoiOk_no_quote h1)
  · exact countQuote_eq_zero.mpr (goParseFloatOk_no_quote h1)

/-- The default (comparison) arm of Clause.Sql, merged over the two numeric
checks. -/
theorem Clause.Sql_default (f v : Str) (op : Operator) (n : Str)
    (h1 : op ≠ .Null) (h2 : op ≠ .NotNull) (h3 : op ≠ .Like) :
    Clause.Sql ⟨f, op, v⟩ n =
      if (goAtoiOk v || goParseFloatOk v) = true then
        (if n = [] then f else n) ++ str " " ++ op.toStr ++ str " " ++ v
      else
        (if n = [] then f else n) ++ str " " ++ op.toStr ++ str " '" ++
          escapeString v ++ str "'" := by
  cases op <;>
    first
      | exact absurd rfl h1
      | exact absurd rfl h2
      | exact absurd rfl h3
      | (by_cases ha : goAtoiOk v = true <;> by_cases hb : goParseFloatOk v = true <;>
          simp [Clause.Sql, ha, hb])

theorem Clause.Sql_null (f v n : Str) :
    Clause.Sql ⟨f, .Null, v⟩ n = (if n = [] then f else n) ++ str " " ++ Operator.toStr .Null :=
  rfl

theorem Clause.Sql_notNull (f v n : Str) :
    Clause.Sql ⟨f, .NotNull, v⟩ n =
      (if n = [] then f else n) ++ str " " ++ Operator.toStr .NotNull :=
  rfl

theorem Clause.Sql_like (f v n : Str) :
    Clause.Sql ⟨f, .Like, v⟩ n =
      (if n = [] then f else n) ++ str " " ++ Operator.toStr .Like ++ str " '%" ++ v ++ str "%'" :=
  rfl

theorem countQuote_space : countQuote (str " ") = 0 := rfl

theorem countQuote_wildOpen : countQuote (str " '%") = 1 := rfl

theorem countQuote_wildClose : countQuote (str "%'") = 1 := rfl

theorem countQuote_litOpen : countQuote (str " '") = 1 := rfl

theorem countQuote_litClose : countQuote (str "'") = 1 := rfl

theorem countQuote_sqlDefault {f v n : Str} {op : Operator}
    (hf : countQuote (if n = [] then f else n) = 0)
    (h1 : op ≠ .Null) (h2 : op ≠ .NotNull) (h3 : op ≠ .Like) :
    countQuote (Clause.Sql ⟨f, op, v⟩ n) % 2 = 0 := by
  rw [Clause.Sql_default f v op n h1 h2 h3]
  by_cases hnum : (goAtoiOk v || goParseFloatOk v) = true
  · rw [if_pos hnum]
    simp only [countQuote_append]
    simp [hf, countQuote_opToStr, countQuote_space, countQuote_zero_of_numeric hnum]
  · rw [if_neg hnum]
    simp only [countQuote_append]
    simp only [hf, countQuote_opToStr, countQuote_space, countQuote_litOpen,
      countQuote_litClose, countQuote_escapeString]
    omega

/-! Claim theorems. -/

/-- Claim C1, counterexample: the Like branch of Clause.Sql interpolates the
raw value without escaping, so the value O'Reilly yields a fragment with an
odd number of single quotes, i.e. an unterminated quoted literal, refuting
the claim that every fragment is balanced with inner quotes doubled. -/
theorem likeFragmentUnterminated :
    Clause.Sql ⟨str "description", .Like, str "O'Reilly"⟩ [] =
      str "description LIKE '%O'Reilly%'" ∧
    countQuote (Clause.Sql ⟨str "description", .Like, str "O'Reilly"⟩ []) % 2 = 1 :=
  ⟨rfl, rfl⟩

/-- Claim C1 (amended): for every clause whose effective field name is
quote-free, every operator other than Like yields a fragment with an even
quote count (every quoted literal is terminated), and the emitted literal
content escapeString value carries every quote doubled; the Like branch
interpolates the value unescaped, so its fragment is balanced only when the
value itself contains no single quote. -/
theorem sqlBalancedQuotes (c : Clause) (n : Str)
    (hf : countQuote (if n = [] then c.field else n) = 0) :
    (c.operator ≠ .Like → countQuote (c.Sql n) % 2 = 0) ∧
    (countQuote c.value = 0 → countQuote (c.Sql n) % 2 = 0) ∧
    quotesDoubled (escapeString c.value) = true := by
  rcases c with ⟨f, op, v⟩
  dsimp only at hf ⊢
  refine ⟨?_, ?_, quotesDoubled_escapeString v⟩
  · intro hlike
    cases op <;>
      first
        | exact absurd rfl hlike
        | (rw [Clause.Sql_null]
           simp [countQuote_append, hf, countQuote_opToStr, countQuote_space])
        | (rw [Clause.Sql_notNull]
           simp [countQuote_append, hf, countQuote_opToStr, countQuote_space])
        | exact countQuote_sqlDefault hf (by decide) (by decide) (by decide)
  · intro hv
    cases op <;>
      first
        | (rw [Clause.Sql_null]
           simp [countQuote_append, hf, countQuote_opToStr, countQuote_space])
        | (rw [Clause.Sql_notNull]
           simp [countQuote_append, hf, countQuote_opToStr, countQuote_space])
        | (rw [Clause.Sql_like]
           simp only [countQuote_append, hf, countQuote_opToStr, countQuote_space,
             countQuote_wildOpen, countQuote_wildClose, hv])
        | exact countQuote_sqlDefault hf (by decide) (by decide) (by decide)

/-- Claim C1 witness: the balance and doubling guarantees evaluated on the
adversarial Equal clause from the repository's own injection tests. -/
theorem sqlBalancedQuotes_witness :
    countQuote (Clause.Sql ⟨str "username", .Equal, str "admin' OR '1'='1"⟩ []) % 2 = 0 ∧
    quotesDoubled (escapeString (str "admin' OR '1'='1")) = true := by
  have h := sqlBalancedQuotes ⟨str "username", .Equal, str "admin' OR '1'='1"⟩ [] (by decide)
  exact ⟨h.1 (by decide), h.2.2⟩

/-- Claim C7: a Like clause always renders its value wrapped in percent
wildcards and single quotes, whatever the value looks like; in particular the
clause with field description and value 20% off! renders as
description LIKE '%20% off!%'. -/
theorem likeAlwaysWildcards :
    (∀ f v n : Str, Clause.Sql ⟨f, .Like, v⟩ n =
      (if n = [] then f else n) ++ str " LIKE '%" ++ v ++ str "%'") ∧
    Clause.Sql ⟨str "description", .Like, str "20% off!"⟩ [] =
      str "description LIKE '%20% off!%'" := by
  constructor
  · intro f v n
    rw [Clause.Sql_like]
    simp only [List.append_assoc]
    rfl
  · rfl

/-- Claim C8: for a comparison operator (not null, notnull or like), a value
accepted by the integer or float parse renders as the raw text unquoted, and
any other value renders single-quoted with every quote doubled by the
escaping; in particular age > 25 and price < 19.99 (see the witness). -/
theorem numericLiteralUnquoted (f v n : Str) (op : Operator)
    (hop : op ≠ .Null ∧ op ≠ .NotNull ∧ op ≠ .Like) :
    ((goAtoiOk v || goParseFloatOk v) = true →
      Clause.Sql ⟨f, op, v⟩ n =
        (if n = [] then f else n) ++ str " " ++ op.toStr ++ str " " ++ v) ∧
    ((goAtoiOk v || goParseFloatOk v) = false →
      Clause.Sql ⟨f, op, v⟩ n =
        (if n = [] then f else n) ++ str " " ++ op.toStr ++ str " '" ++
          escapeString v ++ str "'" ∧
      quotesDoubled (escapeString v) = true) := by
  have hd := Clause.Sql_default f v op n hop.1 hop.2.1 hop.2.2
  constructor
  · intro h
    rw [hd, if_pos h]
  · intro h
    refine ⟨?_, quotesDoubled_escapeString v⟩
    rw [hd, if_neg (by simp [h])]

theorem breakAt_concat {sep : Char} : ∀ {a : Str} (b : Str), sep ∉ a →
    breakAt sep (a ++ sep :: b) = some (a, b) := by
  intro a
  induction a with
  | nil => intro b h; simp [breakAt]
  | cons c rest ih =>
    intro b h
    simp only [List.mem_cons, not_or] at h
    have hc : ¬(c = sep) := fun heq => h.1 heq.symm
    simp only [List.cons_append, breakAt, if_neg hc]
    simp [ih b h.2]

theorem splitNOn_three (a b v : Str) (ha : ':' ∉ a) (hb : ':' ∉ b) :
    splitNOn ':' 3 (a ++ ':' :: (b ++ ':' :: v)) = [a, b, v] := by
  simp [splitNOn, breakAt_concat _ ha, breakAt_concat _ hb]

theorem fieldsAux_nonspace : ∀ (s acc : Str), s.all (fun c => !isSpaceChar c) = true →
    fieldsAux s acc = if (acc.reverse ++ s).isEmpty then [] else [acc.reverse ++ s] := by
  intro s
  induction s with
  | nil =>
    intro acc _
    cases acc <;> simp [fieldsAux]
  | cons c rest ih =>
    intro acc h
    simp only [List.all_cons, Bool.and_eq_true] at h
    have hc : isSpaceChar c = false := by simpa using h.1
    rw [fieldsAux, if_neg (by simp [hc]), ih (c :: acc) h.2]
    simp [List.reverse_cons, List.append_assoc]

theorem fields_single {s : Str} (hne : s ≠ []) (h : s.all (fun c => !isSpaceChar c) = true) :
    fields s = [s] := by
  rw [fields, fieldsAux_nonspace s [] h]
  simp [hne]

theorem stripWrapQuotes_wrapped (w : Str) :
    stripWrapQuotes ('\'' :: (w ++ [ '\'' ])) = w := by
  rw [stripWrapQuotes, if_pos]
  · simp
  · refine ⟨by simp, rfl, ?_⟩
    rw [show ('\'' :: (w ++ [ '\'' ])) = ('\'' :: w) ++ [ '\'' ] from rfl]
    exact List.getLast?_concat _

/-- Claim C3, counterexample: registering the symbol LIKE2 is not observed by a
later parse of field1:LIKE2:x, because Parse lowercases the operator key
before the lookup while RegisterOperator stores the symbol verbatim. -/
theorem uppercaseSymbolNotObserved :
    parseQuery (registerOperator defaultOperatorMap (str "LIKE2") .Like)
        (str "field1:LIKE2:x") =
      .error ⟨str "field1:LIKE2:x", str "unsupported operator"⟩ :=
  rfl

/-- Claim C3 (amended): a registered symbol is observed immediately by every
later parse of a well-formed predicate token using it, provided the symbol is
lowercase-stable (toLowerStr s = s); a symbol containing an uppercase letter
is unreachable because Parse lowercases the operator key before the lookup
(see uppercaseSymbolNotObserved). -/
theorem registerOperatorObservedLowercase (m : OperatorMap) (s field v : Str) (op : Operator)
    (hlow : toLowerStr s = s)
    (hop : op ≠ .Null ∧ op ≠ .NotNull)
    (hf : ':' ∉ field)
    (hs : ':' ∉ s)
    (hws : (field ++ ':' :: (s ++ ':' :: v)).all (fun c => !isSpaceChar c) = true)
    (hsort : startsWith (field ++ ':' :: (s ++ ':' :: v)) (str "sort:") = false) :
    parseQuery (registerOperator m s op) (field ++ ':' :: (s ++ ':' :: v)) =
      .ok ([⟨field, op, stripWrapQuotes v⟩], []) := by
  have hne : (field ++ ':' :: (s ++ ':' :: v)) ≠ [] := by
    cases field <;> simp
  rw [parseQuery, fields_single hne hws]
  simp only [parseTokens, hsort, Bool.false_eq_true, if_false,
    parseClauseToken, splitNOn_three field s v hf hs, registerOperator, hlow]
  simp [opLookup, hop.1, hop.2]

/-- Claim C3 witness: registering the tilde symbol for Like and parsing a
token that uses it. -/
theorem registerOperatorObservedLowercase_witness :
    parseQuery (registerOperator defaultOperatorMap (str "~") .Like) (str "price:~:abc") =
      .ok ([⟨str "price", .Like, str "abc"⟩], []) :=
  registerOperatorObservedLowercase defaultOperatorMap (str "~") (str "price") (str "abc")
    .Like (by decide) (by decide) (by decide) (by decide) (by decide) (by decide)

theorem not_asc_of_desc {s : Str} (h : endsWith s (str "__desc") = true) :
    endsWith s (str "__asc") = false := by
  cases ha : endsWith s (str "__asc") with
  | false => rfl
  | true =>
    exfalso
    have h1 : (str "__asc") <:+ s := List.isSuffixOf_iff_suffix.mp ha
    have h2 : (str "__desc") <:+ s := List.isSuffixOf_iff_suffix.mp h
    have h3 : (str "_desc") <:+ (str "__desc") := ⟨str "_", rfl⟩
    have h4 := h3.trans h2
    have e1 := List.suffix_iff_eq_drop.mp h1
    have e2 := List.suffix_iff_eq_drop.mp h4
    simp only [show (str "__asc").length = 5 from rfl] at e1
    simp only [show (str "_desc").length = 5 from rfl] at e2
    exact absurd (e1.trans e2.symm) (by decide)

/-- Claim C9: each comma-separated sort entry with the __desc suffix parses to
a Descending sort clause on the suffix-stripped field, __asc to Ascending,
and no suffix defaults to Ascending; a sort token yields exactly the
comma-split entries mapped in order; in particular
sort:field1__desc,field2__asc,field3 parses to the three-entry sort list of
the claim. -/
theorem sortDirectionDefaulting :
    (∀ s : Str, endsWith s (str "__desc") = true →
      parseSortClause s = ⟨s.take (s.length - 6), .Desc⟩) ∧
    (∀ s : Str, endsWith s (str "__asc") = true →
      parseSortClause s = ⟨s.take (s.length - 5), .Asc⟩) ∧
    (∀ s : Str, endsWith s (str "__asc") = false → endsWith s (str "__desc") = false →
      parseSortClause s = ⟨s, .Asc⟩) ∧
    (∀ (m : OperatorMap) (rest : Str),
      parseTokens m [str "sort:" ++ rest] =
        .ok ([], (splitAll ',' rest).map parseSortClause)) ∧
    parseQuery defaultOperatorMap (str "sort:field1__desc,field2__asc,field3") =
      .ok ([], [⟨str "field1", .Desc⟩, ⟨str "field2", .Asc⟩, ⟨str "field3", .Asc⟩]) := by
  refine ⟨?_, ?_, ?_, ?_, by rfl⟩
  · intro s h
    rw [parseSortClause, if_neg (by simp [not_asc_of_desc h]), if_pos (by simp [h])]
  · intro s h
    rw [parseSortClause, if_pos (by simp [h])]
  · intro s h1 h2
    rw [parseSortClause, if_neg (by simp [h1]), if_neg (by simp [h2])]
  · intro m rest
    have hpre : startsWith (str "sort:" ++ rest) (str "sort:") = true :=
      List.isPrefixOf_iff_prefix.mpr ⟨rest, rfl⟩
    have hdrop : (str "sort:" ++ rest).drop 5 = rest := by
      rw [show (5 : Nat) = (str "sort:").length from rfl]
      exact List.drop_left _ _
    simp [parseTokens, hpre, hdrop]

/-- Claim C9 witness: the three suffix cases of parseSortClause evaluated on
the claim's example entries. -/
theorem sortDirectionDefaulting_witness :
    parseSortClause (str "field1__desc") = ⟨str "field1", .Desc⟩ ∧
    parseSortClause (str "field2__asc") = ⟨str "field2", .Asc⟩ ∧
    parseSortClause (str "field3") = ⟨str "field3", .Asc⟩ := by
  refine ⟨?_, ?_, ?_⟩
  · exact (sortDirectionDefaulting.1 (str "field1__desc") (by decide)).trans (by decide)
  · exact (sortDirectionDefaulting.2.1 (str "field2__asc") (by decide)).trans (by decide)
  · exact sortDirectionDefaulting.2.2.1 (str "field3") (by decide) (by decide)

/-- Claim C10: a value wrapper-quoted by the user whose inner text passes the
numeric parse is rendered unquoted: the parser strips one quote pair before
the renderer's numeric inference runs, so field1:=:'w' with column field1
compiles to field1 = w as a bare SQL number. -/
theorem quotedValueNumericInference (w : Str)
    (hnum : (goAtoiOk w || goParseFloatOk w) = true)
    (hws : w.all (fun c => !isSpaceChar c) = true) :
    advancedSqlSearch defaultOperatorMap (str "field1:=:" ++ ('\'' :: (w ++ [ '\'' ])))
        [⟨str "field1", .StringType, []⟩] =
      .ok (str "field1 = " ++ w, []) := by
  have hne : (str "field1:=:" ++ ('\'' :: (w ++ [ '\'' ]))) ≠ [] := by simp [str]
  have hall : (str "field1:=:" ++ ('\'' :: (w ++ [ '\'' ]))).all
      (fun c => !isSpaceChar c) = true := by
    simp only [List.all_append, List.all_cons, Bool.and_eq_true]
    refine ⟨by decide, by decide, hws, by decide⟩
  have hsort : startsWith (str "field1:=:" ++ ('\'' :: (w ++ [ '\'' ]))) (str "sort:") =
      false := rfl
  have hsplit : splitNOn ':' 3 (str "field1:=:" ++ ('\'' :: (w ++ [ '\'' ]))) =
      [str "field1", str "=", '\'' :: (w ++ [ '\'' ])] := by
    rw [show (str "field1:=:" ++ ('\'' :: (w ++ [ '\'' ]))) =
        str "field1" ++ ':' :: (str "=" ++ ':' :: ('\'' :: (w ++ [ '\'' ]))) from rfl]
    exact splitNOn_three _ _ _ (by decide) (by decide)
  have hclause : parseClauseToken defaultOperatorMap
      (str "field1:=:" ++ ('\'' :: (w ++ [ '\'' ]))) =
      .ok ⟨str "field1", .Equal, w⟩ := by
    have hop : opLookup defaultOperatorMap (toLowerStr (str "=")) = some .Equal := rfl
    simp [parseClauseToken, hsplit, hop, stripWrapQuotes_wrapped]
  have hcol : getColumnByFieldName [⟨str "field1", .StringType, []⟩] (str "field1") =
      some ⟨str "field1", .StringType, []⟩ := rfl
  have hsql : Clause.Sql ⟨str "field1", .Equal, w⟩ (str "field1") = str "field1 = " ++ w := by
    rw [Clause.Sql_default (str "field1") w .Equal (str "field1")
      (by decide) (by decide) (by decide), if_pos hnum, if_neg (by decide)]
    simp only [List.append_assoc]
    rfl
  rw [advancedSqlSearch, parseQuery, fields_single hne hall]
  simp [parseTokens, hsort, hclause, whereStatement, sortStatement, hcol, hsql, joinWith]

/-- Claim C10 witness: the pipeline evaluated at the claim's example input
field1:=:'25'. -/
theorem quotedValueNumericInference_witness :
    advancedSqlSearch defaultOperatorMap (str "field1:=:'25'")
        [⟨str "field1", .StringType, []⟩] = .ok (str "field1 = 25", []) := by
  have h := quotedValueNumericInference (str "25") (by decide) (by decide)
  exact h

theorem parseClauseToken_error_data {m : OperatorMap} {t : Str} {e : ParseError}
    (he : parseClauseToken m t = .error e) :
    e.part = t ∧ (e.cause = str "invalid query format" ∨ e.cause = str "unsupported operator" ∨
      e.cause = str "missing value") := by
  rw [parseClauseToken] at he
  split at he
  · injection he with h2
    subst h2
    exact ⟨rfl, Or.inl rfl⟩
  · split at he
    · injection he with h2
      subst h2
      exact ⟨rfl, Or.inr (Or.inl rfl)⟩
    · split at he
      · injection he with h2
        subst h2
        exact ⟨rfl, Or.inr (Or.inr rfl)⟩
      · simp at he
  · split at he
    · injection he with h2
      subst h2
      exact ⟨rfl, Or.inr (Or.inl rfl)⟩
    · split at he <;> simp at he
  · injection he with h2
    subst h2
    exact ⟨rfl, Or.inl rfl⟩

theorem malformedToken_iff_error {m : OperatorMap} {t : Str}
    (hsort : startsWith t (str "sort:") = false) :
    malformedToken m t = true ↔ ∃ e, parseClauseToken m t = .error e := by
  rw [malformedToken, hsort, parseClauseToken]
  simp only [Bool.not_false, Bool.true_and]
  rcases h3 : splitNOn ':' 3 t with _ | ⟨x1, _ | ⟨x2, _ | ⟨x3, _ | ⟨x4, t5⟩⟩⟩⟩
  · simp
  · simp
  · cases hol : opLookup m (toLowerStr x2) with
    | none => simp [hol]
    | some op =>
      by_cases hnn : op ≠ .Null ∧ op ≠ .NotNull
      · simp [hol, hnn.1, hnn.2]
      · rcases not_and_or.mp hnn with h5 | h5 <;> rw [not_not] at h5 <;> subst h5 <;>
          simp [hol]
  · cases hol : opLookup m (toLowerStr x2) with
    | none => simp [hol]
    | some op =>
      by_cases hnn : op ≠ .Null ∧ op ≠ .NotNull
      · simp [hol, hnn.1, hnn.2]
      · rcases not_and_or.mp hnn with h5 | h5 <;> rw [not_not] at h5 <;> subst h5 <;>
          simp [hol]
  · simp

theorem malformedToken_of_error {m : OperatorMap} {t : Str} {e : ParseError}
    (hsort : startsWith t (str "sort:") = false) (he : parseClauseToken m t = .error e) :
    malformedToken m t = true :=
  (malformedToken_iff_error hsort).mpr ⟨e, he⟩

theorem not_malformedToken_of_ok {m : OperatorMap} {t : Str} {c : Clause}
    (hok : parseClauseToken m t = .ok c) : malformedToken m t = false := by
  cases hmt : malformedToken m t with
  | false => rfl
  | true =>
    have hsort : startsWith t (str "sort:") = false := by
      cases hq : startsWith t (str "sort:") with
      | false => rfl
      | true =>
        rw [malformedToken, hq] at hmt
        simp at hmt
    obtain ⟨e, he⟩ := (malformedToken_iff_error hsort).mp hmt
    rw [hok] at he
    simp at he

theorem parseTokens_error_of_malformed (m : OperatorMap) :
    ∀ ts : List Str, (∃ t ∈ ts, malformedToken m t = true) →
      ∃ e, parseTokens m ts = .error e ∧ e.part ∈ ts ∧ malformedToken m e.part = true ∧
        (e.cause = str "invalid query format" ∨ e.cause = str "unsupported operator" ∨
          e.cause = str "missing value") := by
  intro ts
  induction ts with
  | nil =>
    rintro ⟨t, ht, _⟩
    simp at ht
  | cons t rest ih =>
    rintro ⟨t0, ht0, hm0⟩
    by_cases hsort : startsWith t (str "sort:") = true
    · have ht0r : t0 ∈ rest := by
        rcases List.mem_cons.mp ht0 with h1 | h1
        · subst h1
          rw [malformedToken, hsort] at hm0
          simp at hm0
        · exact h1
      obtain ⟨e, he, hmem, hm2, hc⟩ := ih ⟨t0, ht0r, hm0⟩
      exact ⟨e, by simp [parseTokens, hsort, he], List.mem_cons_of_mem _ hmem, hm2, hc⟩
    · have hsortf : startsWith t (str "sort:") = false := by simpa using hsort
      cases hct : parseClauseToken m t with
      | error e =>
        obtain ⟨hpart, hc⟩ := parseClauseToken_error_data hct
        refine ⟨e, by simp [parseTokens, hsortf, hct], ?_, ?_, hc⟩
        · rw [hpart]; exact List.mem_cons_self _ _
        · rw [hpart]; exact malformedToken_of_error hsortf hct
      | ok c =>
        have hmt := not_malformedToken_of_ok hct
        have ht0r : t0 ∈ rest := by
          rcases List.mem_cons.mp ht0 with h1 | h1
          · subst h1
            rw [hmt] at hm0
            cases hm0
          · exact h1
        obtain ⟨e, he, hmem, hm2, hc⟩ := ih ⟨t0, ht0r, hm0⟩
        exact ⟨e, by simp [parseTokens, hsortf, hct, he], List.mem_cons_of_mem _ hmem, hm2, hc⟩

/-- Claim C5: a query containing a malformed predicate token (no colon,
unknown operator symbol, or a non-null operator without a value segment)
makes Parse return a ParseError whose offending token is one of the query's
malformed tokens and whose cause is one of the three grammar reasons, and no
clause or sort list is produced (the error result carries no partial
data). -/
theorem grammarErrorAllOrNothing (m : OperatorMap) (q : Str)
    (h : ∃ t ∈ fields q, malformedToken m t = true) :
    ∃ e, parseQuery m q = .error e ∧ e.part ∈ fields q ∧ malformedToken m e.part = true ∧
      (e.cause = str "invalid query format" ∨ e.cause = str "unsupported operator" ∨
        e.cause = str "missing value") := by
  rw [parseQuery]
  exact parseTokens_error_of_malformed m (fields q) h

/-- Claim C5 witness: the two example queries of the claim, each containing a
malformed token, both fail with a ParseError. -/
theorem grammarErrorAllOrNothing_witness :
    ((∃ t ∈ fields (str "field1:=value1"),
        malformedToken defaultOperatorMap t = true) ∧
      ∃ e, parseQuery defaultOperatorMap (str "field1:=value1") = .error e ∧
        e.part ∈ fields (str "field1:=value1") ∧
        malformedToken defaultOperatorMap e.part = true ∧
        (e.cause = str "invalid query format" ∨ e.cause = str "unsupported operator" ∨
          e.cause = str "missing value")) ∧
    ((∃ t ∈ fields (str "field1:unsupportedop:value1"),
        malformedToken defaultOperatorMap t = true) ∧
      ∃ e, parseQuery defaultOperatorMap (str "field1:unsupportedop:value1") = .error e ∧
        e.part ∈ fields (str "field1:unsupportedop:value1") ∧
        malformedToken defaultOperatorMap e.part = true ∧
        (e.cause = str "invalid query format" ∨ e.cause = str "unsupported operator" ∨
          e.cause = str "missing value")) :=
  ⟨⟨by decide, grammarErrorAllOrNothing defaultOperatorMap (str "field1:=value1") (by decide)⟩,
    ⟨by decide,
      grammarErrorAllOrNothing defaultOperatorMap (str "field1:unsupportedop:value1")
        (by decide)⟩⟩

theorem filterMap_congr_none {α β : Type} (l : List α) (f : α → Option β)
    (h : ∀ a, f a = none) : l.filterMap f = [] := by
  induction l with
  | nil => rfl
  | cons a rest ih => simp [List.filterMap_cons, h a, ih]

theorem whereStatement_nilCols (cs : List Clause) : whereStatement [] cs = [] := by
  rw [whereStatement, filterMap_congr_none cs
    (fun c => Option.map (fun col => c.Sql col.name) (getColumnByFieldName [] c.field))
    (fun c => rfl)]
  rfl

theorem sortStatement_nilCols (ss : List SortClause) : sortStatement [] ss = [] := by
  rw [sortStatement, filterMap_congr_none ss
    (fun sc => Option.map
      (fun col => col.name ++ str " " ++
        if sc.direction = Direction.Desc then str "DESC" else str "ASC")
      (getColumnByFieldName [] sc.field))
    (fun sc => rfl)]
  rfl

theorem sqlV1Parts_nilCols : ∀ cs : List Clause, sqlV1Parts [] cs = .ok (cs.map Clause.SqlV1) := by
  intro cs
  induction cs with
  | nil => rfl
  | cons c rest ih => simp [sqlV1Parts, ih]

/-- Claim C2, counterexample: with an empty column set, the v2 compiler drops
every parsed clause and sort entry instead of passing fields through: the
query parses to one clause and one sort entry, yet both output fragments are
empty. -/
theorem emptyColumnsDropAll :
    parseQuery defaultOperatorMap (str "field1:=:value1 sort:field1") =
      .ok ([⟨str "field1", .Equal, str "value1"⟩], [⟨str "field1", .Asc⟩]) ∧
    advancedSqlSearch defaultOperatorMap (str "field1:=:value1 sort:field1") [] =
      .ok ([], []) :=
  ⟨rfl, rfl⟩

/-- Claim C2 (amended): with an empty column set the two versions diverge: the
v1 compiler applies no whitelisting and renders every parsed clause with the
field exactly as typed, while the v2 compiler resolves no field at all, so
every clause and sort entry is dropped and both fragments are empty. -/
theorem emptyColumnSetBehavior (m : OperatorMap) (q : Str) :
    (∀ cs ss, parseQuery m q = .ok (cs, ss) → advancedSqlSearch m q [] = .ok ([], [])) ∧
    (∀ cs, parseQueryV1 m q = .ok cs →
      advancedSqlSearchV1 m q [] = .ok (joinWith (str " AND ") (cs.map Clause.SqlV1))) := by
  constructor
  · intro cs ss hp
    simp [advancedSqlSearch, hp, whereStatement_nilCols, sortStatement_nilCols]
  · intro cs hp
    simp [advancedSqlSearchV1, hp, sqlV1Parts_nilCols]

/-- Claim C2 witness: both versions evaluated on a one-clause query with the
empty column set. -/
theorem emptyColumnSetBehavior_witness :
    advancedSqlSearch defaultOperatorMap (str "f2:=:7") [] = .ok ([], []) ∧
    advancedSqlSearchV1 defaultOperatorMap (str "f2:=:7") [] = .ok (str "f2 = 7") := by
  constructor
  · exact (emptyColumnSetBehavior defaultOperatorMap (str "f2:=:7")).1
      [⟨str "f2", .Equal, str "7"⟩] [] (by rfl)
  · exact ((emptyColumnSetBehavior defaultOperatorMap (str "f2:=:7")).2
      [⟨str "f2", .Equal, str "7"⟩] (by rfl)).trans (by rfl)

theorem filterMap_map_filter {α β γ : Type} (r : α → Option β) (g : α → β → γ) :
    ∀ l : List α,
      (l.filter (fun a => (r a).isSome)).filterMap (fun a => (r a).map (g a)) =
        l.filterMap (fun a => (r a).map (g a)) := by
  intro l
  induction l with
  | nil => rfl
  | cons a rest ih =>
    cases hr : r a <;> simp [List.filter_cons, hr, List.filterMap_cons, ih]

/-- Claim C4: with a non-empty column set, compilation of a successfully
parsed query never fails, and every clause or sort entry whose field resolves
to no column is silently omitted: removing the unresolved entries from the
inputs leaves both output fragments unchanged. -/
theorem unknownFieldSilentlyDropped (m : OperatorMap) (q : Str) (columns : List Column)
    (_hcols : columns ≠ []) (cs : List Clause) (ss : List SortClause)
    (hp : parseQuery m q = .ok (cs, ss)) :
    advancedSqlSearch m q columns = .ok (whereStatement columns cs, sortStatement columns ss) ∧
    whereStatement columns
        (cs.filter (fun c => (getColumnByFieldName columns c.field).isSome)) =
      whereStatement columns cs ∧
    sortStatement columns
        (ss.filter (fun sc => (getColumnByFieldName columns sc.field).isSome)) =
      sortStatement columns ss := by
  refine ⟨by simp [advancedSqlSearch, hp], ?_, ?_⟩
  · rw [whereStatement, whereStatement]
    exact congrArg (joinWith (str " AND "))
      (filterMap_map_filter (fun c => getColumnByFieldName columns c.field)
        (fun c col => c.Sql col.name) cs)
  · rw [sortStatement, sortStatement]
    exact congrArg (joinWith (str ", "))
      (filterMap_map_filter (fun sc => getColumnByFieldName columns sc.field)
        (fun sc col => col.name ++ str " " ++
          (if sc.direction = .Desc then str "DESC" else str "ASC")) ss)

/-- Claim C4 witness: with only column field1 supplied, the query
field3:=:value1 sort:field3 compiles without error to empty WHERE and ORDER
BY bodies. -/
theorem unknownFieldSilentlyDropped_witness :
    advancedSqlSearch defaultOperatorMap (str "field3:=:value1 sort:field3")
        [⟨str "field1", .StringType, [str "f1"]⟩] = .ok ([], []) := by
  have h := (unknownFieldSilentlyDropped defaultOperatorMap (str "field3:=:value1 sort:field3")
    [⟨str "field1", .StringType, [str "f1"]⟩] (by decide)
    [⟨str "field3", .Equal, str "value1"⟩] [⟨str "field3", .Asc⟩] (by rfl)).1
  exact h.trans (by rfl)

/-- Claim C6, counterexample: a column set that contains the column field1
with alias f1 but also an earlier column named f1: resolution is first-match,
so the alias query renders f1, not the canonical field1, and the two queries
compile to different WHERE bodies, refuting the claim for this column set. -/
theorem aliasShadowedByEarlierColumn :
    advancedSqlSearch defaultOperatorMap (str "f1:=:value1")
        [⟨str "f1", .StringType, []⟩, ⟨str "field1", .StringType, [str "f1"]⟩] =
      .ok (str "f1 = 'value1'", []) ∧
    advancedSqlSearch defaultOperatorMap (str "field1:=:value1")
        [⟨str "f1", .StringType, []⟩, ⟨str "field1", .StringType, [str "f1"]⟩] =
      .ok (str "field1 = 'value1'", []) :=
  ⟨rfl, rfl⟩

/-- Claim C6 (amended): whenever both the alias f1 and the canonical name
field1 resolve (first-match) to a column whose canonical name is field1 — in
particular for the singleton column set of the claim — the queries
f1:=:value1 and field1:=:value1 compile to the same WHERE body
field1 = 'value1', rendering the canonical name rather than the typed
alias. -/
theorem aliasResolvesToCanonical (columns : List Column) (ca cb : Column)
    (ha : getColumnByFieldName columns (str "f1") = some ca) (h1 : ca.name = str "field1")
    (hb : getColumnByFieldName columns (str "field1") = some cb)
    (h2 : cb.name = str "field1") :
    advancedSqlSearch defaultOperatorMap (str "f1:=:value1") columns =
      .ok (str "field1 = 'value1'", []) ∧
    advancedSqlSearch defaultOperatorMap (str "field1:=:value1") columns =
      .ok (str "field1 = 'value1'", []) := by
  constructor
  · have hp : parseQuery defaultOperatorMap (str "f1:=:value1") =
        .ok ([⟨str "f1", .Equal, str "value1"⟩], []) := rfl
    have hsql : Clause.Sql ⟨str "f1", .Equal, str "value1"⟩ (str "field1") =
        str "field1 = 'value1'" := rfl
    simp [advancedSqlSearch, hp, whereStatement, sortStatement, ha, h1, hsql, joinWith]
  · have hp : parseQuery defaultOperatorMap (str "field1:=:value1") =
        .ok ([⟨str "field1", .Equal, str "value1"⟩], []) := rfl
    have hsql : Clause.Sql ⟨str "field1", .Equal, str "value1"⟩ (str "field1") =
        str "field1 = 'value1'" := rfl
    simp [advancedSqlSearch, hp, whereStatement, sortStatement, hb, h2, hsql, joinWith]

/-- Claim C6 witness: the amended statement evaluated at the claim's own
singleton column set (canonical field1, alias f1). -/
theorem aliasResolvesToCanonical_witness :
    advancedSqlSearch defaultOperatorMap (str "f1:=:value1")
        [⟨str "field1", .StringType, [str "f1"]⟩] = .ok (str "field1 = 'value1'", []) ∧
    advancedSqlSearch defaultOperatorMap (str "field1:=:value1")
        [⟨str "field1", .StringType, [str "f1"]⟩] = .ok (str "field1 = 'value1'", []) :=
  aliasResolvesToCanonical [⟨str "field1", .StringType, [str "f1"]⟩]
    ⟨str "field1", .StringType, [str "f1"]⟩ ⟨str "field1", .StringType, [str "f1"]⟩
    (by rfl) (by rfl) (by rfl) (by rfl)

/-- Claim C8 witness: the numeric rendering evaluated at the two examples of
the claim. -/
theorem numericLiteralUnquoted_witness :
    Clause.Sql ⟨str "age", .GreaterThan, str "25"⟩ [] = str "age > 25" ∧
    Clause.Sql ⟨str "price", .LessThan, str "19.99"⟩ [] = str "price < 19.99" := by
  constructor
  · exact ((numericLiteralUnquoted (str "age") (str "25") [] .GreaterThan
      (by decide)).1 (by decide)).trans (by decide)
  · exact ((numericLiteralUnquoted (str "price") (str "19.99") [] .LessThan
      (by decide)).1 (by decide)).trans (by decide)

end AdvSearch
